import Mathlib

/-!
Verification of the inference-server discovery and routing subsystem
(`inference-host-source` module and the admin discovery HTTP route).

The TypeScript source is shallowly embedded: pure string manipulation
becomes functions on `List Char` / `String`, the module-level discovery
cache becomes an explicit `CacheState` threaded through the functions,
`Math.random()` draws become explicit rational parameters in `[0,1)`,
and fallible code returns an explicit result type distinguishing normal
return, a thrown `Error(msg)`, a runtime `TypeError` (property access on
`undefined`), and divergence of the rejection-sampling loop.
-/

/-- One character of JavaScript `String.prototype.toLowerCase`, restricted to
ASCII (the only characters model identifiers use): maps `A`–`Z` to `a`–`z`,
leaves everything else unchanged. -/
def jsToLowerChar (c : Char) : Char :=
  if 65 ≤ c.toNat ∧ c.toNat ≤ 90 then Char.ofNat (c.toNat + 32) else c

/-- JavaScript `.toLowerCase()` on the character list of a string (ASCII). -/
def jsToLower (s : List Char) : List Char := s.map jsToLowerChar

/-- Is `c` matched by the character class `[a-z0-9]`? -/
def isLowerAlnum (c : Char) : Bool :=
  (97 ≤ c.toNat && c.toNat ≤ 122) || (48 ≤ c.toNat && c.toNat ≤ 57)

/-- JavaScript `.replace(/[^a-z0-9]/g, '')`: keep only the characters matched
by `[a-z0-9]`. -/
def stripNonAlnum (s : List Char) : List Char := s.filter isLowerAlnum

/-- Fuel-driven body of `replaceAll`: one unit of fuel per character examined,
so `fuel = s.length` always suffices.  At each position, if the literal
pattern `pat` is a prefix of the rest, emit `repl` and skip the matched
characters; otherwise keep the character.  This is exactly the left-to-right
non-overlapping scan of JavaScript `String.prototype.replace` with a `/g`
literal pattern. -/
def replaceAllAux (pat repl : List Char) : Nat → List Char → List Char
  | 0, s => s
  | _ + 1, [] => []
  | fuel + 1, c :: cs =>
    if pat.isPrefixOf (c :: cs) then
      repl ++ replaceAllAux pat repl fuel (cs.drop (pat.length - 1))
    else
      c :: replaceAllAux pat repl fuel cs

/-- JavaScript `s.replace(/pat/g, repl)` for a literal nonempty pattern. -/
def replaceAll (pat repl s : List Char) : List Char :=
  replaceAllAux pat repl s.length s

/-- Does `s` contain `pat` as a contiguous substring
(JavaScript `s.includes(pat)`)? -/
def containsSub (pat : List Char) : List Char → Bool
  | [] => pat.isPrefixOf []
  | c :: cs => pat.isPrefixOf (c :: cs) || containsSub pat cs

/-- Source function `normalizeModelName` on character lists, line for line:
lowercase, strip every character outside `[a-z0-9]`, delete all occurrences
of `small` and of `large`, then rewrite `instruct` to `it` and `instruction`
to `it` (the last replacement can no longer find anything: every `instruct`
occurrence, including the prefix of any `instruction`, was already
rewritten). -/
def normalizeModelNameL (l : List Char) : List Char :=
  replaceAll "instruction".data "it".data
    (replaceAll "instruct".data "it".data
      (replaceAll "large".data []
        (replaceAll "small".data []
          (stripNonAlnum (jsToLower l)))))

/-- Source function `normalizeModelName`, as a `String → String` function. -/
def normalizeModelName (modelName : String) : String :=
  ⟨normalizeModelNameL modelName.data⟩

/-- Is `c` one of the separator characters of the regex `/[-_]/`? -/
def isSep (c : Char) : Bool := c = '-' || c = '_'

/-- JavaScript `s.split(/[-_]/)` on character lists: always returns at least
one (possibly empty) segment, and keeps empty segments between adjacent
separators. -/
def splitSepsL : List Char → List (List Char)
  | [] => [[]]
  | c :: cs =>
    if isSep c then [] :: splitSepsL cs
    else
      match splitSepsL cs with
      | [] => [[c]]
      | t :: ts => (c :: t) :: ts

/-- Source function `isModelMatch`: exact string equality, then equality of
normalized names, then the partial/common-token rule — split both *normalized*
names on `-`/`_`, compare the first ("core") tokens, and when the cores agree
require at least two tokens of the server name to occur among the requested
name's tokens. -/
def isModelMatch (serverModel requestedModel : String) : Bool :=
  if serverModel = requestedModel then true
  else if normalizeModelName serverModel = normalizeModelName requestedModel then true
  else
    let serverParts := splitSepsL (normalizeModelNameL serverModel.data)
    let requestedParts := splitSepsL (normalizeModelNameL requestedModel.data)
    let serverCore := serverParts.headD []
    let requestedCore := requestedParts.headD []
    if serverCore = requestedCore then
      decide ((serverParts.filter (fun part => requestedParts.contains part)).length ≥ 2)
    else false

/-- Source interface `InferenceServerInfo`: one live-server descriptor produced
by a successful health probe. -/
structure InferenceServerInfo where
  port : Nat
  modelId : String
  url : String
  health : Bool
deriving DecidableEq

/-- Source function `getInferenceServerForModel`, with the discovered
snapshot passed explicitly: first healthy descriptor accepted by
`isModelMatch`, else the first healthy descriptor, else `none`. -/
def getInferenceServerForModel (servers : List InferenceServerInfo)
    (modelId : String) : Option String :=
  match servers.find? (fun s => s.health && isModelMatch s.modelId modelId) with
  | some s => some s.url
  | none =>
    match servers.find? (fun s => s.health) with
    | some s => some s.url
    | none => none

example : normalizeModelName "Gemma-2-2b-IT" = "gemma22bit" := by decide
example : normalizeModelName "gpt2-small" = "gpt2" := by decide
example : normalizeModelName "smsmallall" = "small" := by decide
example : normalizeModelName "small" = "" := by decide
example : isModelMatch "gemma-2-2b-it" "gemma-2-2b" = false := by decide
example : isModelMatch "GEMMA-2-2B" "gemma-2-2b" = true := by decide

/-- Source constant `LOCALHOST_INFERENCE_HOST`, as a function of the
`IS_DOCKER_COMPOSE` configuration flag. -/
def LOCALHOST_INFERENCE_HOST (isDockerCompose : Bool) : String :=
  if isDockerCompose then "http://inference:5002" else "http://127.0.0.1:5002"

/-- Source function `getDynamicLocalhostInferenceHost`, with the discovered
snapshot passed explicitly.  A missing or empty model identifier is falsy
(`!modelId`), and `dynamicHost || LOCALHOST_INFERENCE_HOST` treats both
`null` and the empty string as falsy. -/
def getDynamicLocalhostInferenceHost (isDockerCompose : Bool)
    (servers : List InferenceServerInfo) (modelId : Option String) : String :=
  match modelId with
  | none => LOCALHOST_INFERENCE_HOST isDockerCompose
  | some m =>
    if m = "" then LOCALHOST_INFERENCE_HOST isDockerCompose
    else
      match getInferenceServerForModel servers m with
      | none => LOCALHOST_INFERENCE_HOST isDockerCompose
      | some u => if u = "" then LOCALHOST_INFERENCE_HOST isDockerCompose else u

/-- Source constant `DISCOVERY_CACHE_TTL`: 30 seconds, in milliseconds. -/
def DISCOVERY_CACHE_TTL : Nat := 30000

/-- The module-level mutable cache of `discoverInferenceServers`
(`_cachedServers` and `_lastDiscovery`), made explicit. -/
structure CacheState where
  cachedServers : List InferenceServerInfo
  lastDiscovery : Nat
deriving DecidableEq

/-- Source function `discoverInferenceServers`, with `Date.now()` and the
outcome of the network probe round passed explicitly.  Returns the served
snapshot, the new cache state, and whether a probe round was issued.  The
cache is served only when it is younger than the TTL *and* non-empty
(`_cachedServers.length > 0`); otherwise the fresh probe result — empty or
not — replaces the cache. -/
def discoverInferenceServers (now : Nat) (probeResult : List InferenceServerInfo)
    (st : CacheState) : List InferenceServerInfo × CacheState × Bool :=
  if now - st.lastDiscovery < DISCOVERY_CACHE_TTL ∧ 0 < st.cachedServers.length then
    (st.cachedServers, st, false)
  else
    (probeResult, ⟨probeResult, now⟩, true)

/-- Port list `portsToCheck` of `discoverInferenceServers`: `[5002]` and the
loop `for (port = 5005; port <= 5020; port++)`. -/
def portsToCheck : List Nat := 5002 :: List.range' 5005 16

/-- Source function `clearInferenceServerCache`: reset the snapshot to `[]`
and the discovery timestamp to `0`. -/
def clearInferenceServerCache : CacheState := ⟨[], 0⟩

/-- The two responses of the admin `POST` handler that the claims are about:
a 200 with the refreshed descriptor list, or a 400 for an unknown action. -/
inductive PostResponse where
  | okRefreshed : List InferenceServerInfo → PostResponse
  | badRequest : PostResponse
deriving DecidableEq

/-- The admin-route `POST` handler, with the parsed `action` field, the
clock and the probe outcome passed explicitly: on `"refresh"` it clears the
cache and runs `getAllDiscoveredInferenceServers` (that is,
`discoverInferenceServers`); on any other action it returns a 400 response
and touches nothing.  Returns the response, the cache state after the
request, and whether a probe round was issued. -/
def adminPostInferenceServers (action : String) (now : Nat)
    (probeResult : List InferenceServerInfo) (st : CacheState) :
    PostResponse × CacheState × Bool :=
  if action = "refresh" then
    let r := discoverInferenceServers now probeResult clearInferenceServerCache
    (.okRefreshed r.1, r.2)
  else
    (.badRequest, st, false)

/-- Outcome of one selector call: a returned value, a thrown
`Error(message)`, a `TypeError` from a property access on `undefined`, or
divergence of the rejection-sampling `while` loop. -/
inductive JsResult (α : Type) where
  | ok : α → JsResult α
  | thrown : String → JsResult α
  | typeError : JsResult α
  | diverge : JsResult α
deriving DecidableEq

/-- Index `Math.floor(q * len)` for one `Math.random()` draw `q ∈ [0,1)`:
an index in `[0, len)` when `len > 0`, and `0` when `len = 0`. -/
def jsRandomIndex (q : ℚ) (len : Nat) : Nat := (Rat.floor (q * (len : ℚ))).toNat

/-- Loop of `[...new Set(hosts)]`, keeping the first occurrence of each URL, as
JavaScript `Set` iteration order does. -/
def uniqueAux (seen : List String) : List String → List String
  | [] => []
  | x :: xs => if seen.contains x then uniqueAux seen xs else x :: uniqueAux (x :: seen) xs

/-- Deduplication `hosts = [...new Set(hosts)]` of the dual-host selectors. -/
def uniqueJS (l : List String) : List String := uniqueAux [] l

/-- The rejection-sampling loop
`while (randomIndex2 === randomIndex) randomIndex2 = Math.floor(Math.random() * hosts.length)`
over an explicit stream of draws (`q0` is the draw already made before the
loop): the result is the first sampled index different from `i`, or `none`
when the finite stream is exhausted (the loop would still be running). -/
def pickDifferentIndex (i len : Nat) (q0 : ℚ) (qs : List ℚ) : Option Nat :=
  if jsRandomIndex q0 len ≠ i then some (jsRandomIndex q0 len)
  else
    match qs with
    | [] => none
    | q :: qs => pickDifferentIndex i len q qs

/-- Rewrites `jsRandomIndex` through the ambient `Int.floor`, for arithmetic
reasoning and concrete evaluation by `norm_num`. -/
theorem jsRandomIndex_eq_floor (q : ℚ) (len : Nat) :
    jsRandomIndex q len = (⌊q * (len : ℚ)⌋).toNat := by
  unfold jsRandomIndex
  rw [Rat.floor_def', ← Rat.floor_def]

example : jsRandomIndex 0 5 = 0 := by norm_num [jsRandomIndex_eq_floor]
example : jsRandomIndex (1/2) 5 = 2 := by
  norm_num [jsRandomIndex_eq_floor]
  decide
example : jsRandomIndex 0 0 = 0 := by norm_num [jsRandomIndex_eq_floor]
example : uniqueJS ["a", "b", "a", "c"] = ["a", "b", "c"] := by decide

/-! ### Helper lemmas about the string primitives -/

/-- Every character of `replaceAllAux pat repl fuel s` comes from `repl` or
from `s`. -/
theorem mem_replaceAllAux {pat repl : List Char} :
    ∀ {fuel : Nat} {s : List Char} {c : Char},
      c ∈ replaceAllAux pat repl fuel s → c ∈ repl ∨ c ∈ s := by
  intro fuel
  induction fuel with
  | zero => exact fun h => Or.inr h
  | succ n ih =>
    intro s c h
    cases s with
    | nil => simp [replaceAllAux] at h
    | cons a as =>
      by_cases hp : pat.isPrefixOf (a :: as)
      · simp only [replaceAllAux, if_pos hp, List.mem_append] at h
        rcases h with h1 | h2
        · exact Or.inl h1
        · rcases ih h2 with h3 | h4
          · exact Or.inl h3
          · exact Or.inr (List.mem_cons_of_mem a (List.drop_subset _ _ h4))
      · simp only [replaceAllAux, if_neg hp, List.mem_cons] at h
        rcases h with h1 | h2
        · exact Or.inr (h1 ▸ List.mem_cons_self a as)
        · rcases ih h2 with h3 | h4
          · exact Or.inl h3
          · exact Or.inr (List.mem_cons_of_mem a h4)

/-- Every character of `replaceAll pat repl s` comes from `repl` or `s`. -/
theorem mem_replaceAll {pat repl s : List Char} {c : Char}
    (h : c ∈ replaceAll pat repl s) : c ∈ repl ∨ c ∈ s :=
  mem_replaceAllAux h

/-- When the pattern does not occur in `s`, the replacement scan leaves `s`
unchanged (any fuel). -/
theorem replaceAllAux_of_not_containsSub {pat repl : List Char} :
    ∀ (fuel : Nat) (s : List Char), containsSub pat s = false →
      replaceAllAux pat repl fuel s = s := by
  intro fuel
  induction fuel with
  | zero => intro s _; rfl
  | succ n ih =>
    intro s h
    cases s with
    | nil => rfl
    | cons a as =>
      simp only [containsSub, Bool.or_eq_false_iff] at h
      simp only [replaceAllAux]
      rw [if_neg (by simp [h.1])]
      exact congrArg (a :: ·) (ih as h.2)

/-- When the pattern does not occur in `s`, `replaceAll` is the identity. -/
theorem replaceAll_of_not_containsSub {pat repl s : List Char}
    (h : containsSub pat s = false) : replaceAll pat repl s = s :=
  replaceAllAux_of_not_containsSub _ _ h

/-- Transitivity of `List.isPrefixOf`. -/
theorem isPrefixOf_trans : ∀ (l1 l2 l3 : List Char), l1.isPrefixOf l2 = true →
    l2.isPrefixOf l3 = true → l1.isPrefixOf l3 = true
  | [], _, l3, _, _ => by cases l3 <;> rfl
  | _ :: _, [], _, h, _ => by simp [List.isPrefixOf] at h
  | _ :: _, _ :: _, [], _, h => by simp [List.isPrefixOf] at h
  | a :: as, b :: bs, c :: cs, h1, h2 => by
    simp only [List.isPrefixOf, Bool.and_eq_true, beq_iff_eq] at h1 h2 ⊢
    obtain ⟨rfl, h1'⟩ := h1
    obtain ⟨rfl, h2'⟩ := h2
    exact ⟨rfl, isPrefixOf_trans _ _ _ h1' h2'⟩

/-- A string with no occurrence of `pat1` also has no occurrence of any
pattern extending `pat1`. -/
theorem containsSub_eq_false_mono {pat1 pat2 : List Char}
    (hp : pat1.isPrefixOf pat2 = true) :
    ∀ s, containsSub pat1 s = false → containsSub pat2 s = false := by
  intro s
  induction s with
  | nil =>
    intro h
    simp only [containsSub] at h ⊢
    cases pat2 with
    | nil => cases pat1 <;> simp_all [List.isPrefixOf]
    | cons b bs => rfl
  | cons a as ih =>
    intro h
    simp only [containsSub, Bool.or_eq_false_iff] at h ⊢
    refine ⟨?_, ih h.2⟩
    cases hq : pat2.isPrefixOf (a :: as) with
    | false => rfl
    | true =>
      rw [isPrefixOf_trans _ _ _ hp hq] at h
      exact absurd h.1 (by decide)

/-- Lowercasing fixes a character of class `[a-z0-9]`. -/
theorem jsToLowerChar_of_isLowerAlnum {c : Char} (h : isLowerAlnum c = true) :
    jsToLowerChar c = c := by
  simp only [isLowerAlnum, Bool.or_eq_true, Bool.and_eq_true, decide_eq_true_eq] at h
  unfold jsToLowerChar
  rw [if_neg (by omega)]

/-- Every character of a normalized model name is in the class `[a-z0-9]`. -/
theorem isLowerAlnum_of_mem_normalizeModelNameL {l : List Char} {c : Char}
    (h : c ∈ normalizeModelNameL l) : isLowerAlnum c = true := by
  unfold normalizeModelNameL at h
  have hit : ∀ d ∈ "it".data, isLowerAlnum d = true := by decide
  rcases mem_replaceAll h with h | h
  · exact hit _ h
  rcases mem_replaceAll h with h | h
  · exact hit _ h
  rcases mem_replaceAll h with h | h
  · exact absurd h (List.not_mem_nil c)
  rcases mem_replaceAll h with h | h
  · exact absurd h (List.not_mem_nil c)
  exact (List.mem_filter.mp h).2

/-- A character list fixed by every stage of the pipeline is fixed by
`normalizeModelNameL`: all its characters are already lowercase
alphanumeric and it contains no occurrence of `small`, `large`, or
`instruct` (hence none of `instruction` either). -/
theorem normalizeModelNameL_fixed {y : List Char}
    (hy : ∀ c ∈ y, isLowerAlnum c = true)
    (h1 : containsSub "small".data y = false)
    (h2 : containsSub "large".data y = false)
    (h3 : containsSub "instruct".data y = false) :
    normalizeModelNameL y = y := by
  have h4 : containsSub "instruction".data y = false :=
    containsSub_eq_false_mono (by decide) y h3
  have hlow : jsToLower y = y := by
    unfold jsToLower
    rw [List.map_congr_left fun a ha => jsToLowerChar_of_isLowerAlnum (hy a ha)]
    exact List.map_id y
  have hstrip : stripNonAlnum y = y := List.filter_eq_self.mpr hy
  unfold normalizeModelNameL
  rw [hlow, hstrip, replaceAll_of_not_containsSub h1,
    replaceAll_of_not_containsSub h2, replaceAll_of_not_containsSub h3,
    replaceAll_of_not_containsSub h4]

/-! ### Helper lemmas about deduplication and random index sampling -/

/-- Membership in `uniqueAux`: the kept elements are exactly those of the
input not already seen. -/
theorem mem_uniqueAux (x : String) : ∀ (l seen : List String),
    (x ∈ uniqueAux seen l ↔ x ∈ l ∧ x ∉ seen)
  | [], seen => by simp [uniqueAux]
  | a :: as, seen => by
    simp only [uniqueAux]
    by_cases ha : a ∈ seen
    · rw [if_pos (by simpa using ha), mem_uniqueAux x as seen]
      simp only [List.mem_cons]
      constructor
      · rintro ⟨hx, hns⟩
        exact ⟨Or.inr hx, hns⟩
      · rintro ⟨hx | hx, hns⟩
        · exact absurd (hx ▸ ha) hns
        · exact ⟨hx, hns⟩
    · rw [if_neg (by simpa using ha)]
      simp only [List.mem_cons, mem_uniqueAux x as (a :: seen)]
      constructor
      · rintro (rfl | ⟨hx, hns⟩)
        · exact ⟨Or.inl rfl, ha⟩
        · exact ⟨Or.inr hx, fun hc => hns (Or.inr hc)⟩
      · rintro ⟨rfl | hx, hns⟩
        · exact Or.inl rfl
        · by_cases hxa : x = a
          · exact Or.inl hxa
          · exact Or.inr ⟨hx, by simp [List.mem_cons, hxa, hns]⟩

/-- Results of `uniqueAux` never contain duplicates. -/
theorem nodup_uniqueAux : ∀ (l seen : List String), (uniqueAux seen l).Nodup
  | [], _ => List.nodup_nil
  | a :: as, seen => by
    simp only [uniqueAux]
    by_cases ha : a ∈ seen
    · rw [if_pos (by simpa using ha)]
      exact nodup_uniqueAux as seen
    · rw [if_neg (by simpa using ha)]
      refine List.nodup_cons.mpr ⟨fun hmem => ?_, nodup_uniqueAux as (a :: seen)⟩
      exact ((mem_uniqueAux a as (a :: seen)).mp hmem).2 (List.mem_cons_self a seen)

/-- Deduplication preserves membership. -/
theorem mem_uniqueJS {x : String} {l : List String} : x ∈ uniqueJS l ↔ x ∈ l := by
  simp [uniqueJS, mem_uniqueAux]

/-- The deduplicated list has no duplicates. -/
theorem nodup_uniqueJS (l : List String) : (uniqueJS l).Nodup :=
  nodup_uniqueAux l []

/-- Deduplicating a nonempty list yields a nonempty list. -/
theorem uniqueJS_ne_nil {l : List String} (h : l ≠ []) : uniqueJS l ≠ [] := by
  cases l with
  | nil => exact absurd rfl h
  | cons a as =>
    intro hc
    have hmem : a ∈ uniqueJS (a :: as) := mem_uniqueJS.mpr (List.mem_cons_self a as)
    rw [hc] at hmem
    exact List.not_mem_nil a hmem

/-- What a successful run of the rejection-sampling loop returns: an index
different from `i` that is one of the sampled indices. -/
theorem pickDifferentIndex_eq_some : ∀ (qs : List ℚ) (q0 : ℚ) (i len j : Nat),
    pickDifferentIndex i len q0 qs = some j →
      j ≠ i ∧ (j = jsRandomIndex q0 len ∨ ∃ q ∈ qs, j = jsRandomIndex q len)
  | [], q0, i, len, j => by
    intro h
    unfold pickDifferentIndex at h
    by_cases hq : jsRandomIndex q0 len ≠ i
    · rw [if_pos hq] at h
      injection h with h
      exact ⟨h ▸ hq, Or.inl h.symm⟩
    · rw [if_neg hq] at h
      cases h
  | q :: qs, q0, i, len, j => by
    intro h
    unfold pickDifferentIndex at h
    by_cases hq : jsRandomIndex q0 len ≠ i
    · rw [if_pos hq] at h
      injection h with h
      exact ⟨h ▸ hq, Or.inl h.symm⟩
    · rw [if_neg hq] at h
      obtain ⟨h1, h2⟩ := pickDifferentIndex_eq_some qs q i len j h
      refine ⟨h1, Or.inr ?_⟩
      rcases h2 with h2 | ⟨p, hp, h2⟩
      · exact ⟨q, List.mem_cons_self q qs, h2⟩
      · exact ⟨p, List.mem_cons_of_mem q hp, h2⟩

/-- The rejection-sampling loop terminates as soon as some available draw
maps to an index different from `i`. -/
theorem pickDifferentIndex_isSome : ∀ (qs : List ℚ) (q0 : ℚ) (i len : Nat),
    (jsRandomIndex q0 len ≠ i ∨ ∃ q ∈ qs, jsRandomIndex q len ≠ i) →
      ∃ j, pickDifferentIndex i len q0 qs = some j
  | [], q0, i, len => by
    intro h
    unfold pickDifferentIndex
    rcases h with h | ⟨q, hq, _⟩
    · exact ⟨_, if_pos h⟩
    · exact absurd hq (List.not_mem_nil q)
  | q :: qs, q0, i, len => by
    intro h
    unfold pickDifferentIndex
    by_cases hq0 : jsRandomIndex q0 len ≠ i
    · exact ⟨_, if_pos hq0⟩
    · rw [if_neg hq0]
      apply pickDifferentIndex_isSome qs q i len
      rcases h with h | ⟨p, hp, hne⟩
      · exact absurd h hq0
      · rcases List.mem_cons.mp hp with rfl | hp'
        · exact Or.inl hne
        · exact Or.inr ⟨p, hp', hne⟩

/-- A `Math.random()` draw in `[0,1)` scaled by a positive length lands
strictly inside the list. -/
theorem jsRandomIndex_lt {q : ℚ} {len : Nat} (_h0 : 0 ≤ q) (h1 : q < 1)
    (hlen : 0 < len) : jsRandomIndex q len < len := by
  rw [jsRandomIndex_eq_floor]
  have hfl : ⌊q * (len : ℚ)⌋ < (len : ℤ) := by
    apply Int.floor_lt.mpr
    push_cast
    calc q * len < 1 * len := by
          exact mul_lt_mul_of_pos_right h1 (by exact_mod_cast hlen)
      _ = len := one_mul _
  omega

/-- Scaling a draw by length zero gives index zero:
`Math.floor(q * 0) = 0`. -/
theorem jsRandomIndex_zero (q : ℚ) : jsRandomIndex q 0 = 0 := by
  rw [jsRandomIndex_eq_floor]
  simp

/-- Source function `getOneRandomServerHostForSourceSet`, with the
collaborators made explicit: `canAccess` is the result of
`userCanAccessModelAndSourceSet`, `dynamicHost` the value of
`getDynamicLocalhostInferenceHost`, `hosts` the catalog result of
`getAllServerHostsForSourceSet`, and `q` the `Math.random()` draw.  The
authorization check comes first, before the routing-mode branch; a denial
returns `null` (modelled `ok none`). -/
def getOneRandomServerHostForSourceSet (useLocalhostInference canAccess : Bool)
    (dynamicHost : String) (hosts : List String) (q : ℚ) :
    JsResult (Option String) :=
  if canAccess = false then .ok none
  else if useLocalhostInference then .ok (some dynamicHost)
  else if hosts.length = 0 then .ok none
  else .ok hosts[jsRandomIndex q hosts.length]?

/-- Source function `getOneRandomServerHostForSource`: `sourceHosts` is the
result of `getSourceInferenceHosts` (`none` models the adapter's `null`,
each list entry stands for one host row's `inferenceHost.hostUrl`).  In
static mode the only guard is against `null`; the indexing
`hosts[randomIndex].inferenceHost.hostUrl` is modelled so that an
out-of-bounds access (element `undefined`) is the runtime `TypeError` the
property access would raise. -/
def getOneRandomServerHostForSource (useLocalhostInference : Bool)
    (dynamicHost : String) (sourceHosts : Option (List String)) (q : ℚ) :
    JsResult String :=
  if useLocalhostInference then .ok dynamicHost
  else
    match sourceHosts with
    | none => .thrown "Source not found."
    | some hosts =>
      match hosts[jsRandomIndex q hosts.length]? with
      | none => .typeError
      | some h => .ok h

/-- Source function `getTwoRandomServerHostsForModel`: in static mode,
empty raw catalog result throws `No hosts found.`, the list is deduplicated
(`[...new Set(hosts)]`), fewer than two distinct hosts yields the first host
twice, and otherwise the second index is rejection-sampled until it differs
from the first (`q2` is its initial draw, `qs` the draws of the `while`
loop). -/
def getTwoRandomServerHostsForModel (useLocalhostInference : Bool)
    (dynamicHost : String) (hosts0 : List String) (q1 q2 : ℚ) (qs : List ℚ) :
    JsResult (String × String) :=
  if useLocalhostInference then .ok (dynamicHost, dynamicHost)
  else if hosts0.length = 0 then .thrown "No hosts found."
  else
    let hosts := uniqueJS hosts0
    if hosts.length < 2 then
      match hosts[0]? with
      | none => .typeError
      | some h => .ok (h, h)
    else
      let randomIndex := jsRandomIndex q1 hosts.length
      match pickDifferentIndex randomIndex hosts.length q2 qs with
      | none => .diverge
      | some j =>
        match hosts[randomIndex]?, hosts[j]? with
        | some a, some b => .ok (a, b)
        | _, _ => .typeError

/-- Source function `getTwoRandomServerHostsForSourceSet`: identical to the
model-scoped variant except that, *after* the routing-mode branch, a failed
`userCanAccessModelAndSourceSet` check throws `Source set not found.`. -/
def getTwoRandomServerHostsForSourceSet (useLocalhostInference canAccess : Bool)
    (dynamicHost : String) (hosts0 : List String) (q1 q2 : ℚ) (qs : List ℚ) :
    JsResult (String × String) :=
  if useLocalhostInference then .ok (dynamicHost, dynamicHost)
  else if canAccess = false then .thrown "Source set not found."
  else if hosts0.length = 0 then .thrown "No hosts found."
  else
    let hosts := uniqueJS hosts0
    if hosts.length < 2 then
      match hosts[0]? with
      | none => .typeError
      | some h => .ok (h, h)
    else
      let randomIndex := jsRandomIndex q1 hosts.length
      match pickDifferentIndex randomIndex hosts.length q2 qs with
      | none => .diverge
      | some j =>
        match hosts[randomIndex]?, hosts[j]? with
        | some a, some b => .ok (a, b)
        | _, _ => .typeError

/-! ### Claim theorems -/

/-- C1, counterexample: a discovery cycle at time 1000 found no servers and
left the cache empty; a second `getSnapshot` call at time 2000 — well inside
the 30000 ms TTL, with no intervening invalidation — nevertheless issues a
new probe round (third component `true`), because the cache-hit test also
requires a non-empty cached snapshot.  This refutes the claim that a cached
empty snapshot short-circuits re-probing until the TTL elapses. -/
theorem C1_empty_cache_reprobes_within_ttl :
    2000 - 1000 < DISCOVERY_CACHE_TTL ∧
      discoverInferenceServers 2000
          [⟨5002, "gpt2", "http://127.0.0.1:5002", true⟩] ⟨[], 1000⟩
        = ([⟨5002, "gpt2", "http://127.0.0.1:5002", true⟩],
           ⟨[⟨5002, "gpt2", "http://127.0.0.1:5002", true⟩], 2000⟩, true) := by
  constructor
  · decide
  · rfl

/-- C1 as amended: within the TTL a `getSnapshot` call returns the cached
snapshot without probing *provided the cached snapshot is non-empty*; a call
that finds an empty cached snapshot always issues a new probe round and
caches its result, whatever the elapsed time. -/
theorem C1_cache_hit_requires_nonempty (now : Nat)
    (probeResult : List InferenceServerInfo) (st : CacheState) :
    (st.cachedServers ≠ [] → now - st.lastDiscovery < DISCOVERY_CACHE_TTL →
      discoverInferenceServers now probeResult st = (st.cachedServers, st, false)) ∧
    (st.cachedServers = [] →
      discoverInferenceServers now probeResult st
        = (probeResult, ⟨probeResult, now⟩, true)) := by
  constructor
  · intro h1 h2
    unfold discoverInferenceServers
    rw [if_pos ⟨h2, List.length_pos.mpr h1⟩]
  · intro h1
    unfold discoverInferenceServers
    rw [if_neg (by simp [h1])]

/-- Witness for the amended C1 at a concrete input: a non-empty snapshot
cached at time 1000 is served unchanged, without probing, at time 2000. -/
theorem C1_cache_hit_requires_nonempty_witness :
    discoverInferenceServers 2000 []
        ⟨[⟨5002, "gpt2", "http://127.0.0.1:5002", true⟩], 1000⟩
      = ([⟨5002, "gpt2", "http://127.0.0.1:5002", true⟩],
         ⟨[⟨5002, "gpt2", "http://127.0.0.1:5002", true⟩], 1000⟩, false) :=
  (C1_cache_hit_requires_nonempty 2000 []
      ⟨[⟨5002, "gpt2", "http://127.0.0.1:5002", true⟩], 1000⟩).1
    (by decide) (by decide)

/-- C9: a `POST` whose action is `refresh` clears the cache and then runs a
fresh discovery cycle — since the cleared cache is empty, the probe round is
always issued, the newly probed descriptor list is returned, and the cache
now holds that fresh result; any other action yields the 400 response and
leaves the cache exactly as it was, with no probe issued. -/
theorem C9_admin_post (action : String) (now : Nat)
    (probeResult : List InferenceServerInfo) (st : CacheState) :
    (action = "refresh" →
      adminPostInferenceServers action now probeResult st
        = (.okRefreshed probeResult, ⟨probeResult, now⟩, true)) ∧
    (action ≠ "refresh" →
      adminPostInferenceServers action now probeResult st
        = (.badRequest, st, false)) := by
  constructor
  · rintro rfl
    unfold adminPostInferenceServers clearInferenceServerCache discoverInferenceServers
    rw [if_pos rfl, if_neg (by simp)]
  · intro h
    unfold adminPostInferenceServers
    rw [if_neg h]

/-- Witness for C9 at concrete inputs: both the refresh branch and the
bogus-action branch. -/
theorem C9_admin_post_witness :
    adminPostInferenceServers "refresh" 5000
        [⟨5005, "gemma-2-2b-it", "http://127.0.0.1:5005", true⟩] ⟨[], 0⟩
      = (.okRefreshed [⟨5005, "gemma-2-2b-it", "http://127.0.0.1:5005", true⟩],
         ⟨[⟨5005, "gemma-2-2b-it", "http://127.0.0.1:5005", true⟩], 5000⟩, true) ∧
    adminPostInferenceServers "bogus" 5000 [] ⟨[], 0⟩ = (.badRequest, ⟨[], 0⟩, false) :=
  ⟨(C9_admin_post "refresh" 5000 _ _).1 rfl,
   (C9_admin_post "bogus" 5000 [] ⟨[], 0⟩).2 (by decide)⟩

/-- C10: the probe scan targets exactly port 5002 together with the
contiguous block 5005–5020; in particular neither 5003 nor 5004 is ever
probed. -/
theorem C10_ports_scanned : ∀ p : Nat,
    p ∈ portsToCheck ↔ (p = 5002 ∨ (5005 ≤ p ∧ p ≤ 5020)) := by
  intro p
  simp only [portsToCheck, List.mem_cons, List.mem_range'_1]
  omega

/-- C2, counterexample: the snapshot lists a live descriptor `GEMMA-2-2B`
(normalized-match for the request) *before* the live descriptor whose model
identifier `gemma-2-2b` exactly equals the request.  The matcher runs one
`find` with `isModelMatch`, which accepts the first descriptor matching by
*any* strategy, so it returns the earlier normalized-match URL, not the URL
of the exactly matching descriptor — refuting precedence of exact match
across the snapshot. -/
theorem C2_exact_match_not_preferred :
    getInferenceServerForModel
        [⟨5005, "GEMMA-2-2B", "http://127.0.0.1:5005", true⟩,
         ⟨5002, "gemma-2-2b", "http://127.0.0.1:5002", true⟩] "gemma-2-2b"
      = some "http://127.0.0.1:5005" ∧
    (⟨5002, "gemma-2-2b", "http://127.0.0.1:5002", true⟩ : InferenceServerInfo).modelId
      = "gemma-2-2b" ∧
    "http://127.0.0.1:5005" ≠ "http://127.0.0.1:5002" := by
  refine ⟨by decide, rfl, by decide⟩

/-- C2 as amended: when some live descriptor's model identifier exactly
equals the requested identifier, the matcher is guaranteed to return the URL
of a live descriptor that `isModelMatch` accepts (the fallback is never
used), namely the *first* matching one in snapshot order — but not
necessarily the exactly matching descriptor, since a single `find` applies
all strategies per descriptor and an earlier normalized or partial match
wins. -/
theorem C2_first_match_wins (servers : List InferenceServerInfo) (modelId : String)
    (h : ∃ s ∈ servers, s.health = true ∧ s.modelId = modelId) :
    ∃ s, servers.find? (fun s => s.health && isModelMatch s.modelId modelId) = some s ∧
      s ∈ servers ∧ s.health = true ∧ isModelMatch s.modelId modelId = true ∧
      getInferenceServerForModel servers modelId = some s.url := by
  obtain ⟨s0, hs0, hh0, he0⟩ := h
  have hmatch : isModelMatch s0.modelId modelId = true := by
    unfold isModelMatch
    rw [if_pos he0]
  have hsome : (servers.find? (fun s => s.health && isModelMatch s.modelId modelId)).isSome := by
    rw [List.find?_isSome]
    exact ⟨s0, hs0, by rw [hh0, hmatch]; rfl⟩
  obtain ⟨s, hfind⟩ := Option.isSome_iff_exists.mp hsome
  have hp := List.find?_some hfind
  simp only [Bool.and_eq_true] at hp
  refine ⟨s, hfind, List.mem_of_find?_eq_some hfind, hp.1, hp.2, ?_⟩
  unfold getInferenceServerForModel
  rw [hfind]

/-- Witness for the amended C2: a two-descriptor snapshot where the first
live descriptor exactly matches the request. -/
theorem C2_first_match_wins_witness :
    ∃ s, ([⟨5002, "gpt2", "http://127.0.0.1:5002", true⟩,
           ⟨5005, "gemma-2-2b-it", "http://127.0.0.1:5005", true⟩] :
            List InferenceServerInfo).find?
            (fun s => s.health && isModelMatch s.modelId "gpt2") = some s ∧
      s ∈ [⟨5002, "gpt2", "http://127.0.0.1:5002", true⟩,
           ⟨5005, "gemma-2-2b-it", "http://127.0.0.1:5005", true⟩] ∧
      s.health = true ∧ isModelMatch s.modelId "gpt2" = true ∧
      getInferenceServerForModel
          [⟨5002, "gpt2", "http://127.0.0.1:5002", true⟩,
           ⟨5005, "gemma-2-2b-it", "http://127.0.0.1:5005", true⟩] "gpt2"
        = some s.url :=
  C2_first_match_wins _ "gpt2"
    ⟨⟨5002, "gpt2", "http://127.0.0.1:5002", true⟩, by decide, by decide, rfl⟩

/-- C3, the code's actual behaviour at the claimed input (the claim and the
repository's own comment and documentation are the intent; the code
disagrees): normalization deletes the `-`/`_` separators *before*
`isModelMatch` splits on them, so both token lists collapse to a single
token, the cores `gemma22bit` and `gemma22b` differ, and the partial rule
cannot fire — `isModelMatch "gemma-2-2b-it" "gemma-2-2b"` is `false`.
Consequently, in a snapshot where a different healthy server is listed
first, the request `gemma-2-2b` is routed to that unrelated server by the
fallback instead of to the `gemma-2-2b-it` descriptor. -/
theorem C3_common_token_rule_never_fires :
    isModelMatch "gemma-2-2b-it" "gemma-2-2b" = false ∧
    splitSepsL (normalizeModelNameL "gemma-2-2b-it".data) = ["gemma22bit".data] ∧
    splitSepsL (normalizeModelNameL "gemma-2-2b".data) = ["gemma22b".data] ∧
    getInferenceServerForModel
        [⟨5002, "gpt2", "http://127.0.0.1:5002", true⟩,
         ⟨5005, "gemma-2-2b-it", "http://127.0.0.1:5005", true⟩] "gemma-2-2b"
      = some "http://127.0.0.1:5002" := by
  refine ⟨by decide, by decide, by decide, by decide⟩

/-- C4, counterexample: normalization is not idempotent.  Deleting the
occurrences of `small` in `smsmallall` (one left-to-right pass) produces the
string `small`, which a second normalization deletes entirely. -/
theorem C4_normalize_not_idempotent :
    normalizeModelName "smsmallall" = "small" ∧
    normalizeModelName (normalizeModelName "smsmallall")
      ≠ normalizeModelName "smsmallall" := by
  refine ⟨by decide, by decide⟩

/-- C4 as amended: normalization is idempotent on every input whose (single)
normalization contains no occurrence of `small`, `large` or `instruct` —
in particular on all conventional model identifiers; it is not idempotent in
general, because deleting an occurrence of `small`/`large` (or rewriting
`instruct`) can splice a new occurrence together, as in `smsmallall`. -/
theorem C4_normalize_idempotent_of_no_keyword (x : String)
    (h1 : containsSub "small".data (normalizeModelName x).data = false)
    (h2 : containsSub "large".data (normalizeModelName x).data = false)
    (h3 : containsSub "instruct".data (normalizeModelName x).data = false) :
    normalizeModelName (normalizeModelName x) = normalizeModelName x := by
  have key : normalizeModelNameL (normalizeModelNameL x.data) = normalizeModelNameL x.data :=
    normalizeModelNameL_fixed
      (fun c hc => isLowerAlnum_of_mem_normalizeModelNameL hc) h1 h2 h3
  show (⟨normalizeModelNameL (normalizeModelNameL x.data)⟩ : String)
    = ⟨normalizeModelNameL x.data⟩
  rw [key]

/-- Witness for the amended C4 at a concrete input whose normalization
(`gemma22bit`) contains none of the deleted keywords. -/
theorem C4_normalize_idempotent_witness :
    normalizeModelName (normalizeModelName "Gemma-2-2b-IT")
      = normalizeModelName "Gemma-2-2b-IT" :=
  C4_normalize_idempotent_of_no_keyword "Gemma-2-2b-IT"
    (by decide) (by decide) (by decide)

/-- C5, counterexample: in dynamic routing mode
(`USE_LOCALHOST_INFERENCE = true`) the dual-host source-set selector checks
the routing mode *before* the authorization check, so a denied user is not
rejected at all: the call succeeds with the dynamic host twice instead of
failing with `Source set not found.` — refuting the "in every routing mode"
part of the claim. -/
theorem C5_dual_host_skips_auth_in_dynamic_mode :
    getTwoRandomServerHostsForSourceSet true false "http://127.0.0.1:5002" [] 0 0 []
      = .ok ("http://127.0.0.1:5002", "http://127.0.0.1:5002") ∧
    getTwoRandomServerHostsForSourceSet true false "http://127.0.0.1:5002" [] 0 0 []
      ≠ .thrown "Source set not found." := ⟨rfl, by decide⟩

/-- C5 as amended: on authorization denial the single-host source-set
selector returns `null` in *every* routing mode (its authorization check
precedes the mode branch), while the dual-host selector throws
`Source set not found.` only in static mode — in dynamic mode it skips the
authorization check entirely and returns the dynamic host twice. -/
theorem C5_denial_signalling (useLocalhostInference : Bool) (dynamicHost : String)
    (hosts : List String) (q q1 q2 : ℚ) (qs : List ℚ) :
    getOneRandomServerHostForSourceSet useLocalhostInference false dynamicHost hosts q
      = .ok none ∧
    getTwoRandomServerHostsForSourceSet false false dynamicHost hosts q1 q2 qs
      = .thrown "Source set not found." ∧
    getTwoRandomServerHostsForSourceSet true false dynamicHost hosts q1 q2 qs
      = .ok (dynamicHost, dynamicHost) := ⟨rfl, rfl, rfl⟩

/-- C6: in static mode `getOneRandomServerHostForSource` guards only against
the adapter returning no source: `none` throws `Source not found.`; a
non-`null` but empty host list makes `Math.floor(Math.random() * 0)`
evaluate to index `0` and the access `hosts[0].inferenceHost` dereferences a
missing element — the modelled `TypeError`.  The operation is total exactly
under the precondition that the source has at least one registered host, in
which case it returns one of the source's host URLs. -/
theorem C6_source_selector_unguarded_empty (dynamicHost : String) (q : ℚ)
    (h0 : 0 ≤ q) (h1 : q < 1) :
    getOneRandomServerHostForSource false dynamicHost none q
      = .thrown "Source not found." ∧
    (jsRandomIndex q 0 = 0 ∧
      getOneRandomServerHostForSource false dynamicHost (some []) q = .typeError) ∧
    (∀ hosts : List String, hosts ≠ [] →
      ∃ h ∈ hosts,
        getOneRandomServerHostForSource false dynamicHost (some hosts) q = .ok h) := by
  refine ⟨rfl, ⟨jsRandomIndex_zero q, ?_⟩, ?_⟩
  · show (match ([] : List String)[jsRandomIndex q 0]? with
      | none => (JsResult.typeError : JsResult String)
      | some h => .ok h) = .typeError
    rw [jsRandomIndex_zero q]
    rfl
  · intro hosts hne
    have hlt : jsRandomIndex q hosts.length < hosts.length :=
      jsRandomIndex_lt h0 h1 (List.length_pos.mpr hne)
    refine ⟨hosts[jsRandomIndex q hosts.length], List.getElem_mem hlt, ?_⟩
    show (match hosts[jsRandomIndex q hosts.length]? with
      | none => (JsResult.typeError : JsResult String)
      | some h => .ok h) = _
    rw [List.getElem?_eq_getElem hlt]

/-- Witness for C6 at a concrete input: the draw `q = 0` on the adapter
results `none`, `some []` and `some ["http://h1:5002"]`. -/
theorem C6_source_selector_witness :
    getOneRandomServerHostForSource false "http://127.0.0.1:5002" none 0
      = .thrown "Source not found." ∧
    (jsRandomIndex 0 0 = 0 ∧
      getOneRandomServerHostForSource false "http://127.0.0.1:5002" (some []) 0
        = .typeError) ∧
    (∀ hosts : List String, hosts ≠ [] →
      ∃ h ∈ hosts,
        getOneRandomServerHostForSource false "http://127.0.0.1:5002" (some hosts) 0
          = .ok h) :=
  C6_source_selector_unguarded_empty "http://127.0.0.1:5002" 0
    (by norm_num) (by norm_num)

/-- C7: the matcher returns `none` exactly when the snapshot has no healthy
descriptor (otherwise the fallback provides a healthy descriptor's URL), and
whenever the matcher returns `none` the dynamic single-host path returns the
configured default host unchanged. -/
theorem C7_matcher_absence (isDockerCompose : Bool)
    (servers : List InferenceServerInfo) (modelId : String) :
    (getInferenceServerForModel servers modelId = none ↔
      ∀ s ∈ servers, s.health = false) ∧
    (getInferenceServerForModel servers modelId = none →
      getDynamicLocalhostInferenceHost isDockerCompose servers (some modelId)
        = LOCALHOST_INFERENCE_HOST isDockerCompose) := by
  constructor
  · cases h1 : servers.find? (fun s => s.health && isModelMatch s.modelId modelId) with
    | some s =>
      have hmem := List.mem_of_find?_eq_some h1
      have hp := List.find?_some h1
      simp only [Bool.and_eq_true] at hp
      simp only [getInferenceServerForModel, h1]
      constructor
      · intro hc
        exact absurd hc (by simp)
      · intro hall
        rw [hall s hmem] at hp
        exact absurd hp.1 (by decide)
    | none =>
      simp only [getInferenceServerForModel, h1]
      cases h2 : servers.find? (fun s => s.health) with
      | some s =>
        have hmem := List.mem_of_find?_eq_some h2
        have hp := List.find?_some h2
        constructor
        · intro hc
          exact absurd hc (by simp)
        · intro hall
          rw [hall s hmem] at hp
          exact absurd hp (by decide)
      | none =>
        refine iff_of_true rfl ?_
        intro s hs
        have := List.find?_eq_none.mp h2 s hs
        simpa using this
  · intro hnone
    simp [getDynamicLocalhostInferenceHost, hnone]

/-- Witness for C7 at a concrete input: an empty snapshot, for which the
matcher returns `none` and the dynamic path returns the default host. -/
theorem C7_matcher_absence_witness :
    (getInferenceServerForModel [] "gpt2" = none ↔
      ∀ s ∈ ([] : List InferenceServerInfo), s.health = false) ∧
    getDynamicLocalhostInferenceHost false [] (some "gpt2")
      = LOCALHOST_INFERENCE_HOST false :=
  ⟨(C7_matcher_absence false [] "gpt2").1,
   (C7_matcher_absence false [] "gpt2").2 (by decide)⟩

/-- In static mode with access granted, the source-set dual-host selector
runs exactly the model-scoped selector's host logic. -/
theorem twoRandomSourceSet_eq_model (dynamicHost : String) (hosts : List String)
    (q1 q2 : ℚ) (qs : List ℚ) :
    getTwoRandomServerHostsForSourceSet false true dynamicHost hosts q1 q2 qs
      = getTwoRandomServerHostsForModel false dynamicHost hosts q1 q2 qs := rfl

/-- C8: in static mode both dual-host selectors (i) throw `No hosts found.`
on an empty raw candidate list, (ii) return the single URL twice when
deduplication leaves one distinct URL, and (iii), when at least two
distinct URLs remain and some available draw differs from the first index
(so the rejection loop terminates), return two *distinct* URLs drawn from
the candidate list. -/
theorem C8_dual_host_selection (dynamicHost : String) (hosts : List String)
    (q1 q2 : ℚ) (qs : List ℚ)
    (hq1 : 0 ≤ q1 ∧ q1 < 1) (hq2 : 0 ≤ q2 ∧ q2 < 1)
    (hqs : ∀ q ∈ qs, 0 ≤ q ∧ q < 1) :
    (hosts = [] →
      getTwoRandomServerHostsForModel false dynamicHost hosts q1 q2 qs
          = .thrown "No hosts found." ∧
      getTwoRandomServerHostsForSourceSet false true dynamicHost hosts q1 q2 qs
          = .thrown "No hosts found.") ∧
    ((uniqueJS hosts).length = 1 →
      ∃ h ∈ hosts,
        getTwoRandomServerHostsForModel false dynamicHost hosts q1 q2 qs
            = .ok (h, h) ∧
        getTwoRandomServerHostsForSourceSet false true dynamicHost hosts q1 q2 qs
            = .ok (h, h)) ∧
    (2 ≤ (uniqueJS hosts).length →
      (∃ q ∈ q2 :: qs, jsRandomIndex q (uniqueJS hosts).length
          ≠ jsRandomIndex q1 (uniqueJS hosts).length) →
      ∃ a b, a ∈ hosts ∧ b ∈ hosts ∧ a ≠ b ∧
        getTwoRandomServerHostsForModel false dynamicHost hosts q1 q2 qs
            = .ok (a, b) ∧
        getTwoRandomServerHostsForSourceSet false true dynamicHost hosts q1 q2 qs
            = .ok (a, b)) := by
  refine ⟨?_, ?_, ?_⟩
  · rintro rfl
    exact ⟨rfl, rfl⟩
  · intro hu1
    have hne : hosts ≠ [] := by
      rintro rfl
      simp [uniqueJS, uniqueAux] at hu1
    have hlen0 : ¬(hosts.length = 0) := by simpa [List.length_eq_zero] using hne
    obtain ⟨h0, hu⟩ := List.length_eq_one.mp hu1
    have hmem : h0 ∈ hosts := mem_uniqueJS.mp (hu ▸ List.mem_cons_self h0 [])
    have hmodel : getTwoRandomServerHostsForModel false dynamicHost hosts q1 q2 qs
        = .ok (h0, h0) := by
      simp only [getTwoRandomServerHostsForModel, Bool.false_eq_true, if_false,
        hlen0, hu]
      rfl
    exact ⟨h0, hmem, hmodel, (twoRandomSourceSet_eq_model _ _ _ _ _).trans hmodel⟩
  · intro hu2 hterm
    have hne : hosts ≠ [] := by
      rintro rfl
      simp [uniqueJS, uniqueAux] at hu2
    have hlen0 : ¬(hosts.length = 0) := by simpa [List.length_eq_zero] using hne
    have hupos : 0 < (uniqueJS hosts).length := lt_of_lt_of_le (by norm_num) hu2
    have hi : jsRandomIndex q1 (uniqueJS hosts).length < (uniqueJS hosts).length :=
      jsRandomIndex_lt hq1.1 hq1.2 hupos
    have hpick : ∃ j, pickDifferentIndex (jsRandomIndex q1 (uniqueJS hosts).length)
        (uniqueJS hosts).length q2 qs = some j := by
      apply pickDifferentIndex_isSome
      obtain ⟨q, hqmem, hqne⟩ := hterm
      rcases List.mem_cons.mp hqmem with rfl | hqmem'
      · exact Or.inl hqne
      · exact Or.inr ⟨q, hqmem', hqne⟩
    obtain ⟨j, hj⟩ := hpick
    obtain ⟨hji, hsrc⟩ := pickDifferentIndex_eq_some _ _ _ _ _ hj
    have hjlt : j < (uniqueJS hosts).length := by
      rcases hsrc with rfl | ⟨q, hqmem, rfl⟩
      · exact jsRandomIndex_lt hq2.1 hq2.2 hupos
      · exact jsRandomIndex_lt (hqs q hqmem).1 (hqs q hqmem).2 hupos
    refine ⟨(uniqueJS hosts)[jsRandomIndex q1 (uniqueJS hosts).length],
      (uniqueJS hosts)[j], mem_uniqueJS.mp (List.getElem_mem hi),
      mem_uniqueJS.mp (List.getElem_mem hjlt), ?_, ?_, ?_⟩
    · intro he
      exact hji (((nodup_uniqueJS hosts).getElem_inj_iff).mp he).symm
    · simp only [getTwoRandomServerHostsForModel, Bool.false_eq_true, if_false,
        hlen0, if_neg (Nat.not_lt.mpr hu2), hj,
        List.getElem?_eq_getElem hi, List.getElem?_eq_getElem hjlt]
    · rw [twoRandomSourceSet_eq_model]
      simp only [getTwoRandomServerHostsForModel, Bool.false_eq_true, if_false,
        hlen0, if_neg (Nat.not_lt.mpr hu2), hj,
        List.getElem?_eq_getElem hi, List.getElem?_eq_getElem hjlt]

/-- Witness for C8 at a concrete input: the empty-candidate branch with
draws `q1 = q2 = 0`. -/
theorem C8_dual_host_selection_witness :
    getTwoRandomServerHostsForModel false "http://127.0.0.1:5002" [] 0 0 []
        = .thrown "No hosts found." ∧
    getTwoRandomServerHostsForSourceSet false true "http://127.0.0.1:5002" [] 0 0 []
        = .thrown "No hosts found." :=
  (C8_dual_host_selection "http://127.0.0.1:5002" [] 0 0 []
      (by norm_num) (by norm_num) (by simp)).1 rfl
